import Mathlib

/-!
Shallow embedding of the chatbot repository (src/app.py, src/chatbot_app.py,
src/nltk_utils.py, src/train.py) used to settle the frozen claims.

Machine text is modelled as Lean `String`; Python numeric scores are modelled
as exact rationals (`ℚ`).  External collaborators (the torch model, the
translation / language-detection / weather services and the wall clock) are
passed in as explicit oracle parameters, as the spec's section 6 prescribes.
-/

namespace Chatbot

/-! ## Python-style string primitives

These model the str methods used by the sources.  Whitespace and case
handling model the ASCII fragment of Python semantics (all strings appearing
in the claims are ASCII or Chinese ideographs, which have no case and are not
whitespace).
-/

/-- Membership of a character in Python's default `str.strip` whitespace set
(ASCII fragment). -/
def isPySpace (c : Char) : Bool :=
  c = ' ' || c = '\t' || c = '\n' || c = '\r' || c = '\x0b' || c = '\x0c'

/-- Python `str.strip()`: remove leading and trailing whitespace. -/
def pyStrip (s : String) : String :=
  String.mk (((s.data.dropWhile isPySpace).reverse.dropWhile isPySpace).reverse)

/-- Python `str.lower()` (ASCII fragment; Chinese characters are unchanged). -/
def pyLower (s : String) : String :=
  String.mk (s.data.map Char.toLower)

/-- Does the character list `p` occur at the start of `l`? -/
def startsL : List Char → List Char → Bool
  | [], _ => true
  | _ :: _, [] => false
  | a :: as, b :: bs => a = b && startsL as bs

/-- Does the character list `sub` occur contiguously inside `l`?
Models Python's `sub in s` substring test. -/
def occursIn (sub : List Char) : List Char → Bool
  | [] => sub.isEmpty
  | c :: rest => startsL sub (c :: rest) || occursIn sub rest

/-- Python `sub in s` on strings. -/
def strContains (s sub : String) : Bool := occursIn sub.data s.data

/-- Python `s.startswith(p)`. -/
def pyStartsWith (s p : String) : Bool := startsL p.data s.data

/-- Helper for `pySplit`: walk the characters accumulating the current
(reversed) word. -/
def splitWsAux : List Char → List Char → List String
  | [], cur => if cur.isEmpty then [] else [String.mk cur.reverse]
  | c :: rest, cur =>
    if isPySpace c then
      if cur.isEmpty then splitWsAux rest []
      else String.mk cur.reverse :: splitWsAux rest []
    else splitWsAux rest (c :: cur)

/-- Python `str.split()` with no separator: split on whitespace runs,
discarding empty pieces. -/
def pySplit (s : String) : List String := splitWsAux s.data []

/-- Python `str.split(maxsplit=1)`: at most one split; the remainder keeps its
internal and trailing characters verbatim. -/
def pySplitMax1 (s : String) : List String :=
  let cs := s.data.dropWhile isPySpace
  if cs.isEmpty then []
  else
    let tok := cs.takeWhile (fun c => !isPySpace c)
    let rest := (cs.drop tok.length).dropWhile isPySpace
    if rest.isEmpty then [String.mk tok] else [String.mk tok, String.mk rest]

/-- Helper for `pyTitle`: the flag records whether the previous character was
alphabetic (cased). -/
def titleAux : Bool → List Char → List Char
  | _, [] => []
  | prev, c :: rest =>
    if c.isAlpha then
      (if prev then c.toLower else c.toUpper) :: titleAux true rest
    else c :: titleAux false rest

/-- Python `str.title()` (ASCII fragment). -/
def pyTitle (s : String) : String := String.mk (titleAux false s.data)

/-! ## nltk_utils.py -/

/-- Character class of the regex `\w` used by `tokenize`
(ASCII fragment: alphanumeric or underscore). -/
def isWordChar (c : Char) : Bool := c.isAlphanum || c = '_'

/-- Helper for `tokenize`: collect maximal runs of word characters; the
accumulator holds the current run reversed. -/
def wordRunsAux : List Char → List Char → List String
  | [], cur => if cur.isEmpty then [] else [String.mk cur.reverse]
  | c :: rest, cur =>
    if isWordChar c then wordRunsAux rest (c :: cur)
    else if cur.isEmpty then wordRunsAux rest []
    else String.mk cur.reverse :: wordRunsAux rest []

/-- `nltk_utils.tokenize`: `re.findall(r'\b\w+\b', sentence.lower())`.
For `\w+` runs, the `\b` anchors are redundant, so this is exactly the list of
maximal word-character runs of the lowercased text. -/
def tokenize (s : String) : List String := wordRunsAux (pyLower s).data []

/-- `nltk_utils.bag_of_words`.  The Porter stemmer is an external algorithm
(the claims are parametric in it), so `stem` is passed as a parameter.
The source initialises `bag = [0] * len(all_words)` and then sets
`bag[idx] = 1` exactly when `all_words[idx]` occurs among the stemmed tokens,
which is the map below. -/
def bag_of_words (stem : String → String) (tokenized_sentence all_words : List String) :
    List Nat :=
  let stems := tokenized_sentence.map stem
  all_words.map (fun w => if w ∈ stems then 1 else 0)

/-- `train.py` line 31: the training row built for a tokenized pattern
(`xy` stores `w = tokenize(pattern)`). -/
def X_train_row (stem : String → String) (all_words pattern_sentence : List String) :
    List Nat :=
  bag_of_words stem pattern_sentence all_words

/-- `app.py` lines 115-116: the inference-time vector for a raw message. -/
def inference_vector (stem : String → String) (all_words : List String) (msg : String) :
    List Nat :=
  bag_of_words stem (tokenize msg) all_words

/-! ## difflib.SequenceMatcher (stdlib collaborator of fuzzy_match_kb)

`SequenceMatcher(None, a, b).ratio()` with default `autojunk=True` and no junk
predicate.  `b2j` maps each character of `b` to its (ascending) index list;
when `b` has at least 200 characters, characters occurring more than
`len(b) // 100 + 1` times are "popular" and removed from `b2j`.
-/

/-- Ascending list of indices of `c` in `b`. -/
def charIdxs (b : List Char) (c : Char) : List Nat :=
  (List.range b.length).filter (fun j => b.getD j '\x00' = c)

/-- The autojunk "popular" test of `SequenceMatcher.__chain_b`. -/
def popularCut (b : List Char) (c : Char) : Bool :=
  decide (200 ≤ b.length) && decide (b.length / 100 + 1 < (charIdxs b c).length)

/-- `b2j` after autojunk removal. -/
def b2j (b : List Char) (c : Char) : List Nat :=
  if popularCut b c then [] else charIdxs b c

/-- The dynamic-programming core of `find_longest_match`: for each `i` in
`[alo, ahi)` and each `j` in `b2j(a[i]) ∩ [blo, bhi)` (the `continue`/`break`
pair in the source is a filter, since the index lists are ascending), extend
the diagonal length `k = j2len[j-1] + 1` and keep the first strictly longest
block.  `j2len` is modelled as a function updated pointwise. -/
def flmCore (a b : List Char) (alo ahi blo bhi : Nat) : Nat × Nat × Nat :=
  let idxs := (List.range a.length).filter (fun i => decide (alo ≤ i) && decide (i < ahi))
  let step := fun (st : (Nat × Nat × Nat) × (Nat → Nat)) (i : Nat) =>
    let js := (b2j b (a.getD i '\x00')).filter
      (fun j => decide (blo ≤ j) && decide (j < bhi))
    js.foldl (fun (st2 : (Nat × Nat × Nat) × (Nat → Nat)) (j : Nat) =>
      let k := (if j = 0 then 0 else st.2 (j - 1)) + 1
      let best2 := if st2.1.2.2 < k then (i + 1 - k, j + 1 - k, k) else st2.1
      (best2, fun j2 => if j2 = j then k else st2.2 j2)) (st.1, fun _ => 0)
  (idxs.foldl step ((alo, blo, 0), fun _ => 0)).1

/-- The first extension loop of `find_longest_match` (the junk set is empty,
so `isbjunk` is constantly false): grow the block to the left over equal
characters.  The fuel is the current `besti`, which bounds the number of
steps. -/
def extendL (a b : List Char) (alo blo : Nat) :
    Nat → Nat → Nat → Nat → Nat × Nat × Nat
  | 0, bi, bj, bs => (bi, bj, bs)
  | fuel + 1, bi, bj, bs =>
    if decide (alo < bi) && decide (blo < bj)
        && (a.getD (bi - 1) '\x00' = b.getD (bj - 1) '\x01') then
      extendL a b alo blo fuel (bi - 1) (bj - 1) (bs + 1)
    else (bi, bj, bs)

/-- The second extension loop: grow the block to the right.  The fuel `ahi`
bounds the number of steps. -/
def extendR (a b : List Char) (ahi bhi : Nat) :
    Nat → Nat → Nat → Nat → Nat
  | 0, _, _, bs => bs
  | fuel + 1, bi, bj, bs =>
    if decide (bi + bs < ahi) && decide (bj + bs < bhi)
        && (a.getD (bi + bs) '\x00' = b.getD (bj + bs) '\x01') then
      extendR a b ahi bhi fuel bi bj (bs + 1)
    else bs

/-- `SequenceMatcher.find_longest_match` on the slice
`a[alo:ahi]` / `b[blo:bhi]` (with `b2j` computed from the whole of `b`, as in
`set_seq2`).  The two junk extension loops are no-ops because the junk set is
empty. -/
def findLongestMatch (a b : List Char) (alo ahi blo bhi : Nat) : Nat × Nat × Nat :=
  let c := flmCore a b alo ahi blo bhi
  let l := extendL a b alo blo c.1 c.1 c.2.1 c.2.2
  let r := extendR a b ahi bhi ahi l.1 l.2.1 l.2.2
  (l.1, l.2.1, r)

/-- Total size of the matching blocks (the `matches` sum of
`get_matching_blocks`), written as the recursion on sub-slices with an
explicit fuel; the initial fuel `|a| + |b| + 1` strictly dominates the
recursion depth. -/
def matchTotal (a b : List Char) : Nat → Nat → Nat → Nat → Nat → Nat
  | 0, _, _, _, _ => 0
  | fuel + 1, alo, ahi, blo, bhi =>
    let m := findLongestMatch a b alo ahi blo bhi
    if m.2.2 = 0 then 0
    else
      matchTotal a b fuel alo m.1 blo m.2.1 + m.2.2 +
        matchTotal a b fuel (m.1 + m.2.2) ahi (m.2.1 + m.2.2) bhi

/-- `SequenceMatcher.ratio()`: `2 * M / (len(a) + len(b))`, and 1 when both
are empty (`_calculate_ratio`). -/
def smRatio (a b : List Char) : ℚ :=
  let m := matchTotal a b (a.length + b.length + 1) 0 a.length 0 b.length
  if a.length + b.length = 0 then 1
  else (2 * m : ℚ) / ((a.length : ℚ) + (b.length : ℚ))

/-! ## chatbot_app.py : validation -/

/-- The characters removed by `re.sub(r'[<>"\']', '', ...)` in
`validate_input`. -/
def strippedChars : List Char := ['<', '>', '"', '\x27']

/-- The sanitisation inside `validate_input`: strip whitespace, then delete
the four unsafe characters. -/
def sanitize (s : String) : String :=
  String.mk ((pyStrip s).data.filter (fun c => !(strippedChars.contains c)))

/-- `chatbot_app.validate_input`.  The input is always a string in this
embedding, so the `isinstance` half of the first guard is vacuous.  Raised
`ChatbotException`s are modelled as `Except.error`. -/
def validate_input (text : String) : Except String String :=
  if text = "" then Except.error "Invalid input provided"
  else
    let sanitized := sanitize text
    if 500 < sanitized.length then
      Except.error "Input too long. Please limit to 500 characters."
    else Except.ok sanitized

/-! ## chatbot_app.py : fuzzy knowledge-base matching -/

/-- A row of the knowledge base (`question`, `answer`); `load_knowledge_base`
lower-cases and strips the question column once at load time. -/
structure KBEntry where
  question : String
  answer : String
deriving DecidableEq

/-- The Python `set(....split())` of words of a string. -/
def wordSet (s : String) : Finset String := (pySplit s).toFinset

/-- The word-overlap ratio of `fuzzy_match_kb`:
`len(user ∩ question) / len(user ∪ question)`, and 0 when the union is
empty. -/
def overlapRatio (input q : String) : ℚ :=
  let u := wordSet (pyLower input)
  let qs := wordSet q
  if (u ∪ qs).card = 0 then 0
  else ((u ∩ qs).card : ℚ) / (((u ∪ qs).card : ℚ))

/-- The character-sequence ratio of `fuzzy_match_kb`:
`SequenceMatcher(None, user_input.lower(), question).ratio()`. -/
def seqRatio (input q : String) : ℚ := smRatio (pyLower input).data q.data

/-- `combined_score = (overlap_ratio * 0.6) + (seq_ratio * 0.4)`. -/
def combinedScore (input : String) (e : KBEntry) : ℚ :=
  overlapRatio input e.question * 0.6 + seqRatio input e.question * 0.4

/-- An element of the `matches` list of `fuzzy_match_kb`:
`(question, combined_score, idx)`. -/
structure MatchRec where
  question : String
  score : ℚ
  idx : Nat
deriving DecidableEq

/-- The ordering used by `matches.sort(key=lambda x: x[1], reverse=True)`. -/
def byScoreDesc (x y : MatchRec) : Prop := y.score ≤ x.score

instance : DecidableRel byScoreDesc :=
  fun x y => inferInstanceAs (Decidable (y.score ≤ x.score))

instance : IsTotal MatchRec byScoreDesc :=
  ⟨fun a b => le_total b.score a.score⟩

instance : IsTrans MatchRec byScoreDesc :=
  ⟨fun _ _ _ h1 h2 => le_trans h2 h1⟩

/-- The `matches` list of `fuzzy_match_kb`: every entry scored, with only the
scores strictly above `0.3` kept. -/
def matchesFor (input : String) (kb : List KBEntry) : List MatchRec :=
  (kb.enum.map (fun p => MatchRec.mk p.2.question (combinedScore input p.2) p.1)).filter
    (fun m => decide ((0.3 : ℚ) < m.score))

/-- `chatbot_app.fuzzy_match_kb`.  Python's `list.sort` is stable; so is
`List.insertionSort`, so the head of the sorted list is the earliest
maximal-scoring match, as in the source. -/
def fuzzy_match_kb (input : String) (kb : List KBEntry) : String × ℚ :=
  if kb.isEmpty then ("Knowledge base is empty.", 0)
  else
    match List.insertionSort byScoreDesc (matchesFor input kb) with
    | [] => ("No relevant information found.", 0)
    | best :: _ => ((kb.getD best.idx ⟨"", ""⟩).answer, best.score)

/-! ## chatbot_app.py : intent classification -/

/-- `GREETING_PATTERNS` (association list; Python dicts keep insertion
order). -/
def GREETING_PATTERNS : List (String × List String) :=
  [("en", ["hello", "hi", "hey", "good morning", "good afternoon",
           "good evening", "greetings", "hola"]),
   ("zh-cn", ["你好", "您好", "早上好", "下午好", "晚上好", "嗨", "hi", "hello"])]

/-- The course keywords of `classify_intent_multilingual`. -/
def course_keywords : List String :=
  ["course", "program", "study", "curriculum", "syllabus", "major",
   "课程", "专业", "学习", "课表", "科目"]

/-- The fee keywords of `classify_intent_multilingual`. -/
def fee_keywords : List String :=
  ["fee", "cost", "price", "tuition", "payment", "money",
   "费用", "学费", "价格", "付款", "钱"]

/-- The time keywords of `classify_intent_multilingual`. -/
def time_keywords : List String :=
  ["time", "when", "schedule", "calendar", "hours",
   "时间", "什么时候", "日程", "日历", "小时"]

/-- Does some keyword of the list occur in the lowercased input?  Models the
`any(keyword in user_input_lower for ...)` tests. -/
def kwHit (kws : List String) (user_input : String) : Bool :=
  kws.any (fun k => strContains (pyLower user_input) k)

/-- The two greeting checks at the top of `classify_intent_multilingual`:
the detected language's pattern set (when the language is a key of
`GREETING_PATTERNS`), then the English set as fallback. -/
def greetingHit (user_input lang : String) : Bool :=
  (match GREETING_PATTERNS.find? (fun p => p.1 = lang) with
   | some p => p.2.any (fun g => strContains (pyLower user_input) g)
   | none => false)
  || kwHit (["hello", "hi", "hey", "good morning", "good afternoon",
             "good evening", "greetings", "hola"]) user_input

/-- `chatbot_app.classify_intent_multilingual`: greetings, then course
keywords, then fee keywords, then time keywords, else `"general"`. -/
def classify_intent_multilingual (user_input lang : String) : String :=
  if greetingHit user_input lang then "greeting"
  else if kwHit course_keywords user_input then "course_inquiry"
  else if kwHit fee_keywords user_input then "fees"
  else if kwHit time_keywords user_input then "time"
  else "general"

/-! ## chatbot_app.py : course data and handlers -/

/-- One value of the `COURSES` dict.  The `curriculum` field is omitted: no
code path modelled here ever reads it. -/
structure CourseData where
  description : String
  duration : String
  career_prospects : List String
  keywords : List String
deriving DecidableEq

/-- `COURSES`, in dict insertion order. -/
def COURSES : List (String × CourseData) :=
  [("computer science",
    { description := "Computer Science prepares students to design, develop, and analyze software systems. Focuses on problem-solving, programming skills, and understanding computing theory.",
      duration := "4 years (8 semesters)",
      career_prospects := ["Software Developer", "Data Scientist", "AI Engineer", "System Analyst", "Cybersecurity Specialist"],
      keywords := ["computer", "cs", "programming", "software", "coding", "计算机", "编程", "软件"] }),
   ("information technology",
    { description := "Information Technology focuses on applying technology to solve business problems. Emphasizes networking, system administration, and IT management.",
      duration := "3 years (6 semesters)",
      career_prospects := ["IT Manager", "Network Administrator", "System Analyst", "IT Consultant", "Database Administrator"],
      keywords := ["it", "information technology", "networking", "systems", "信息技术", "网络"] }),
   ("business",
    { description := "Business studies prepare students for management roles. Covers finance, marketing, operations, and strategic management.",
      duration := "3 years (6 semesters)",
      career_prospects := ["Business Manager", "Marketing Executive", "Financial Analyst", "HR Manager", "Entrepreneur"],
      keywords := ["business", "management", "marketing", "finance", "mba", "商业", "管理", "营销"] }),
   ("engineering",
    { description := "Engineering programs develop problem-solving, design, and technical skills across various fields such as mechanical, electrical, or civil engineering.",
      duration := "4 years (8 semesters)",
      career_prospects := ["Mechanical Engineer", "Electrical Engineer", "Civil Engineer", "Project Manager", "Design Engineer"],
      keywords := ["engineering", "mechanical", "civil", "electrical", "工程", "机械", "电气"] }),
   ("nursing",
    { description := "Nursing programs prepare students to provide healthcare, patient care, and clinical support. Aims include patient safety, clinical skills, and health assessment.",
      duration := "4 years (8 semesters)",
      career_prospects := ["Registered Nurse", "Clinical Nurse", "Nurse Manager", "Public Health Nurse", "Nurse Educator"],
      keywords := ["nursing", "healthcare", "clinical", "patient", "medical", "护理", "医疗", "临床"] })]

/-- One entry of the rolling `conversation_context` window. -/
structure CtxEntry where
  user_input : String
  intent : String
  confidence : ℚ
deriving DecidableEq

/-- The per-session state of `st.session_state` that the resolution pipeline
reads or writes.  `session_id` (a random id), `user_language` (a UI selector)
and the UI-only `chat_input` are omitted; `course_pending` is kept although
no modelled path writes it after initialisation. -/
structure SessionState where
  history : List (String × String)
  conversation_context : List CtxEntry
  processing : Bool
  last_processed : String
  current_course : Option String
  course_pending : Option String
deriving DecidableEq

/-- `initialize_session`'s defaults. -/
def initialSession : SessionState :=
  { history := [], conversation_context := [], processing := false,
    last_processed := "", current_course := none, course_pending := none }

/-- `handle_greeting` (dict lookup with English default). -/
def handle_greeting (lang : String) : String :=
  if lang = "zh-cn" then
    "您好！👋 欢迎来到我们大学。我在这里为您提供有关课程、入学、费用等信息。今天我能为您做什么？"
  else
    "Hello! 👋 Welcome to our University. I\x27m here to help you with information about our courses, admissions, fees, and more. How can I assist you today?"

/-- The detailed course response string built by `handle_course_inquiry`. -/
def courseDetail (name : String) (d : CourseData) : String :=
  "📚 **" ++ pyTitle name ++ "**\n\n" ++
  "**Description:** " ++ d.description ++ "\n\n" ++
  "**Duration:** " ++ d.duration ++ "\n\n" ++
  "**Career Prospects:** " ++ String.intercalate ", " d.career_prospects ++ "\n\n" ++
  "Would you like to know more about the curriculum or admission requirements?"

/-- The general course listing built by `handle_course_inquiry` when no
specific course matches. -/
def courseListing : String :=
  "🎓 We offer the following programs:\n\n" ++
  String.join (COURSES.map (fun c => "• **" ++ pyTitle c.1 ++ "**\n")) ++
  "\nWhich program would you like to know more about?"

/-- `chatbot_app.handle_course_inquiry`: the first course (in dict order) one
of whose keywords occurs in the translated-lowercased input or in the
lowercased original is reported with confidence 0.9 and remembered in
`current_course`; otherwise the listing with confidence 0.8. -/
def handle_course_inquiry (st : SessionState) (user_input original : String) :
    String × ℚ × SessionState :=
  match COURSES.find? (fun c =>
      c.2.keywords.any (fun k => strContains user_input k)
      || c.2.keywords.any (fun k => strContains (pyLower original) k)) with
  | some c => (courseDetail c.1 c.2, 0.9, { st with current_course := some c.1 })
  | none => (courseListing, 0.8, st)

/-- The fee response when a student type was recognised; reads the
remembered course (`if course:`; the course name is never empty). -/
def feeText (st : SessionState) (ty fee : String) : String :=
  match st.current_course with
  | some c =>
    "💰 The tuition fees for **" ++ pyTitle c ++ "** are **" ++ fee ++
      "** per semester for " ++ ty ++ " students."
  | none =>
    "💰 Tuition fees are **" ++ fee ++ "** per semester for " ++ ty ++ " students."

/-- The general fee table of `handle_fees_inquiry`. -/
def generalFees : String :=
  "💰 **Tuition Fees:**\n\n" ++
  "• **Domestic Students:** RM 10,000 per semester\n" ++
  "• **International Students:** RM 15,000 per semester\n\n" ++
  "Additional fees may apply for laboratory, library, and other facilities.\n" ++
  "Would you like information about scholarships or payment plans?"

/-- `chatbot_app.handle_fees_inquiry` (every branch has confidence 1.0). -/
def handle_fees_inquiry (st : SessionState) (user_input : String) : String × ℚ :=
  if strContains user_input "international" || strContains user_input "国际" then
    (feeText st "international" "RM 15,000", 1)
  else if strContains user_input "domestic" || strContains user_input "local"
      || strContains user_input "本地" then
    (feeText st "domestic" "RM 10,000", 1)
  else (generalFees, 1)

/-- `chatbot_app.handle_time_query`.  The wall clock is external: `now`
stands for the formatted `datetime.now()` text (the two language-specific
`strftime` layouts are collapsed into the oracle). -/
def handle_time_query (now lang : String) : String :=
  if lang = "zh-cn" then "🕒 当前时间：" ++ now
  else "🕒 Current time: " ++ now

/-! ## chatbot_app.py : the enhanced response pipeline -/

/-- The language-keyed fallback responses of `get_enhanced_response`
(dict `get` with English default). -/
def fallbackResponse (lang : String) : String :=
  if lang = "zh-cn" then
    "抱歉，我没有相关信息。您能重新表达您的问题或询问我们的课程、入学、费用或设施吗？"
  else
    "I\x27m sorry, I don\x27t have information about that. Could you please rephrase your question or ask about our courses, admissions, fees, or facilities?"

/-- The language-keyed error responses of the `except` branch of
`get_enhanced_response`. -/
def errorResponse (lang : String) : String :=
  if lang = "zh-cn" then "抱歉，我遇到了错误。请重试。"
  else "I apologize, but I encountered an error. Please try again."

/-- `translated_input`: the sanitised input, translated to English when the
detected language is not English (`tr` is the external translator,
`safe_translate`). -/
def translatedInput (tr : String → String) (lang v : String) : String :=
  if lang ≠ "en" then tr v else v

/-- What `get_enhanced_response` returns, with the session state made
explicit (the source mutates `st.session_state`). -/
structure EnhResult where
  response : String
  confidence : ℚ
  translated : String
  intent : String
  state : SessionState
deriving DecidableEq

/-- The intent dispatch of `get_enhanced_response` (everything after
validation and before the response back-translation). -/
def stageResult (tr : String → String) (now : String) (kb : List KBEntry)
    (st : SessionState) (v lang : String) : String × ℚ × SessionState :=
  let intent := classify_intent_multilingual v lang
  let translated := translatedInput tr lang v
  let lower := pyLower translated
  if intent = "greeting" then (handle_greeting lang, 1, st)
  else if intent = "course_inquiry" then handle_course_inquiry st lower v
  else if intent = "fees" then
    let fr := handle_fees_inquiry st lower
    (fr.1, fr.2, st)
  else if intent = "time" then (handle_time_query now lang, 1, st)
  else
    let fz := fuzzy_match_kb translated kb
    if fz.2 < 0.3 then (fallbackResponse lang, 0, st) else (fz.1, fz.2, st)

/-- `chatbot_app.get_enhanced_response`.  A validation failure is caught by
the function's own `except Exception` and turned into the apologetic error
response with confidence 0 and intent `"error"` (nothing after validation
can raise in this embedding).  `tr` translates the input to English,
`trBack` translates the response back to the detected language. -/
def get_enhanced_response (tr trBack : String → String) (now : String)
    (kb : List KBEntry) (st : SessionState) (input lang : String) : EnhResult :=
  match validate_input input with
  | Except.error _ => ⟨errorResponse lang, 0, input, "error", st⟩
  | Except.ok v =>
    let intent := classify_intent_multilingual v lang
    let translated := translatedInput tr lang v
    let r := stageResult tr now kb st v lang
    let resp := if lang ≠ "en" ∧ 0 < r.2.1 then trBack r.1 else r.1
    ⟨resp, r.2.1, translated, intent, r.2.2⟩

/-! ## chatbot_app.py : per-turn processing -/

/-- `logs[-10:]`-style truncation of the context window after an append. -/
def cap10 (l : List CtxEntry) : List CtxEntry :=
  if 10 < l.length then l.drop (l.length - 10) else l

/-- The last `n` elements of a list, in order. -/
def lastN (n : Nat) (l : List α) : List α := l.drop (l.length - n)

/-- `chatbot_app.process_user_input` as a state transition.  `det` is the
external `safe_detect_language`.  Logging is fire-and-forget and the
`st.rerun()` UI signal is outside the state; neither is modelled.  The
`except` branch is unreachable here because `get_enhanced_response` is
total. -/
def process_user_input (det tr trBack : String → String) (now : String)
    (kb : List KBEntry) (st : SessionState) (x : String) : SessionState :=
  if pyStrip x = "" ∨ st.processing then st
  else
    let st1 := { st with processing := true }
    let r := get_enhanced_response tr trBack now kb st1 x (det x)
    { r.state with
      history := r.state.history ++ [("You", x), ("Bot", r.response)],
      conversation_context :=
        cap10 (r.state.conversation_context ++ [⟨x, r.intent, r.confidence⟩]),
      processing := false }

/-- A sequence of turn-processing calls. -/
def runTurns (det tr trBack : String → String) (now : String)
    (kb : List KBEntry) (st : SessionState) (inputs : List String) : SessionState :=
  inputs.foldl (process_user_input det tr trBack now kb) st

/-- The context entry a processed input contributes; intent and confidence do
not depend on the session state (proved below), so they are read off at the
initial state. -/
def turnEntry (det tr trBack : String → String) (now : String)
    (kb : List KBEntry) (x : String) : CtxEntry :=
  let r := get_enhanced_response tr trBack now kb initialSession x (det x)
  ⟨x, r.intent, r.confidence⟩

/-! ## app.py : the rule-then-classifier pipeline -/

/-- `app.check_faq`: the answer of the first row whose lowercased question
occurs in the lowercased message (`kb` models the rows of `faq.csv`; a
missing file is the empty list). -/
def check_faq (kb : List (String × String)) (msg : String) : Option String :=
  (kb.find? (fun row => strContains (pyLower msg) (pyLower row.1))).map Prod.snd

/-- `app.custom_keywords`, in dict insertion order. -/
def custom_keywords : List (String × String) :=
  [("delivery", "faq_shipping"), ("return", "faq_refund"),
   ("payment", "faq_payment"), ("order", "faq_order")]

/-- The fixed fallback text of `app.get_response`. -/
def appFallback : String := "🤔 抱歉，我不太理解你的意思..."

/-- The keyword stage and classifier stage of `app.get_response` (everything
after the FAQ check).  The torch model is external: `clfProb` is the softmax
probability of the arg-max tag, and `clfResponse` the response template the
`intents` lookup plus `random.choice` would produce for that tag (`none` when
the tag is in no intent group). -/
def keyword_stage (clfProb : ℚ) (clfResponse : Option String) (msg : String) : String :=
  match custom_keywords.find? (fun kw => strContains msg kw.1) with
  | some kw => "🔍 你在问关于 " ++ kw.1 ++ " 的问题，请访问我们的帮助页面！"
  | none =>
    if 0.75 < clfProb then
      match clfResponse with
      | some r => r
      | none => appFallback
    else appFallback

/-- `app.get_response`.  `weatherOr` is the external weather capability
(`get_weather` plus icon display), `nowStr` the formatted
`datetime.now()` text.  The module-level `context_memory` write only stores
the raw message for display and is not modelled. -/
def get_response (weatherOr : String → String) (nowStr : String)
    (kb : List (String × String)) (clfProb : ℚ) (clfResponse : Option String)
    (msg0 : String) : String :=
  let msg := pyLower msg0
  if pyStartsWith msg "/weather" then
    match pySplitMax1 msg with
    | [_, city] => weatherOr city
    | _ => "❗ 格式错误，请使用 /weather <城市名>"
  else if strContains msg "time" || strContains msg "date" then
    "🕒 现在是 " ++ nowStr
  else
    match check_faq kb msg with
    | some ans => if ans = "" then keyword_stage clfProb clfResponse msg
                  else "📚 " ++ ans
    | none => keyword_stage clfProb clfResponse msg

/-! ## Concrete inputs used by the claim analyses -/

/-- An input of 501 characters, longer than the 500-character validation
limit. -/
def longInput : String := String.mk (List.replicate 501 'a')

/-- Twelve non-blank inputs. -/
def twelveInputs : List String :=
  ["a1", "a2", "a3", "a4", "a5", "a6", "a7", "a8", "a9", "b1", "b2", "b3"]

/-- A session whose in-flight guard is set. -/
def busySession : SessionState := { initialSession with processing := true }

/-! ## Helper lemmas on lists -/

theorem getD_of_get? {α : Type} (l : List α) (i : Nat) (d e : α)
    (h : l.get? i = some e) : l.getD i d = e := by
  induction l generalizing i with
  | nil => simp at h
  | cons a t ih =>
    cases i with
    | zero => simp at h; simp [List.getD, h]
    | succ n =>
      simp only [List.get?] at h
      simpa [List.getD] using ih n h

theorem mem_enumFrom_get? {α : Type} :
    ∀ (l : List α) (n i : Nat) (e : α),
      (i, e) ∈ l.enumFrom n → n ≤ i ∧ l.get? (i - n) = some e := by
  intro l
  induction l with
  | nil => intro n i e h; simp [List.enumFrom] at h
  | cons a t ih =>
    intro n i e h
    simp only [List.enumFrom, List.mem_cons, Prod.mk.injEq] at h
    rcases h with ⟨hi, he⟩ | h
    · subst hi; subst he; simp
    · obtain ⟨hle, hget⟩ := ih (n + 1) i e h
      refine ⟨by omega, ?_⟩
      have hi2 : i - n = (i - (n + 1)) + 1 := by omega
      rw [hi2]
      simpa using hget

theorem get?_mem_enumFrom {α : Type} :
    ∀ (l : List α) (n i : Nat) (e : α),
      l.get? i = some e → (n + i, e) ∈ l.enumFrom n := by
  intro l
  induction l with
  | nil => intro n i e h; simp at h
  | cons a t ih =>
    intro n i e h
    cases i with
    | zero => simp at h; simp [List.enumFrom, h]
    | succ m =>
      simp only [List.get?] at h
      have := ih (n + 1) m e h
      simp only [List.enumFrom, List.mem_cons]
      right
      have heq : n + (m + 1) = (n + 1) + m := by omega
      rw [heq]
      exact this

theorem mem_enum_get? {α : Type} (l : List α) (i : Nat) (e : α)
    (h : (i, e) ∈ l.enum) : l.get? i = some e := by
  have := mem_enumFrom_get? l 0 i e h
  simpa using this.2

theorem get?_mem_enum {α : Type} (l : List α) (i : Nat) (e : α)
    (h : l.get? i = some e) : (i, e) ∈ l.enum := by
  simpa using get?_mem_enumFrom l 0 i e h

theorem lastN_of_le {α : Type} (n : Nat) (l : List α) (h : l.length ≤ n) :
    lastN n l = l := by
  unfold lastN
  rw [Nat.sub_eq_zero_of_le h, List.drop_zero]

theorem length_lastN {α : Type} (n : Nat) (l : List α) :
    (lastN n l).length = min n l.length := by
  unfold lastN
  rw [List.length_drop]
  omega

theorem cap10_eq_lastN (l : List CtxEntry) : cap10 l = lastN 10 l := by
  unfold cap10 lastN
  by_cases h : 10 < l.length
  · rw [if_pos h]
  · rw [if_neg h, Nat.sub_eq_zero_of_le (by omega), List.drop_zero]

theorem lastN_append_lastN {α : Type} (n : Nat) (A B : List α) :
    lastN n (lastN n A ++ B) = lastN n (A ++ B) := by
  rcases le_total A.length n with h | h
  · rw [lastN_of_le n A h]
  · unfold lastN
    have h1 : (A ++ B).drop (A.length - n) = A.drop (A.length - n) ++ B := by
      rw [List.drop_append_eq_append_drop, Nat.sub_eq_zero_of_le (Nat.sub_le _ _),
        List.drop_zero]
    rw [← h1, List.drop_drop]
    congr 1
    simp only [List.length_append, List.length_drop]
    omega

/-! ## Lemmas on fuzzy_match_kb -/

theorem mem_matchesFor {input : String} {kb : List KBEntry} {m : MatchRec} :
    m ∈ matchesFor input kb ↔
      ((0.3 : ℚ) < m.score ∧
        ∃ e, kb.get? m.idx = some e ∧ m.question = e.question ∧
          m.score = combinedScore input e) := by
  unfold matchesFor
  rw [List.mem_filter]
  constructor
  · rintro ⟨hmap, hsc⟩
    obtain ⟨p, hp, hpe⟩ := List.mem_map.mp hmap
    refine ⟨by simpa using hsc, p.2, ?_, ?_, ?_⟩
    · have := mem_enum_get? kb p.1 p.2 (by simpa using hp)
      rw [← hpe]
      simpa using this
    · rw [← hpe]
    · rw [← hpe]
  · rintro ⟨hsc, e, hget, hq, hs⟩
    refine ⟨?_, by simpa using hsc⟩
    apply List.mem_map.mpr
    refine ⟨(m.idx, e), get?_mem_enum kb m.idx e hget, ?_⟩
    cases m
    simp_all

theorem matchesFor_nil_of_below {input : String} {kb : List KBEntry}
    (h : ∀ e ∈ kb, combinedScore input e ≤ 0.3) : matchesFor input kb = [] := by
  rcases hm : matchesFor input kb with _ | ⟨m, t⟩
  · rfl
  · exfalso
    have hmem : m ∈ matchesFor input kb := by rw [hm]; simp
    obtain ⟨hsc, e, hget, _, hs⟩ := mem_matchesFor.mp hmem
    have he : e ∈ kb := List.get?_mem hget
    have := h e he
    rw [hs] at hsc
    linarith

theorem matchesFor_ne_nil_of_above {input : String} {kb : List KBEntry}
    {e : KBEntry} (he : e ∈ kb) (hs : (0.3 : ℚ) < combinedScore input e) :
    matchesFor input kb ≠ [] := by
  obtain ⟨⟨i, hi⟩, hget⟩ := List.mem_iff_get.mp he
  have hget? : kb.get? i = some e := by
    rw [List.get?_eq_get hi, hget]
  have hmem : MatchRec.mk e.question (combinedScore input e) i ∈ matchesFor input kb :=
    mem_matchesFor.mpr ⟨hs, e, hget?, rfl, rfl⟩
  intro hnil
  rw [hnil] at hmem
  simp at hmem

theorem sorted_head_max (M : List MatchRec) (hM : M ≠ []) :
    ∃ m t, List.insertionSort byScoreDesc M = m :: t ∧ m ∈ M ∧
      ∀ x ∈ M, x.score ≤ m.score := by
  have hperm := List.perm_insertionSort byScoreDesc M
  have hsort := List.sorted_insertionSort byScoreDesc M
  rcases hs : List.insertionSort byScoreDesc M with _ | ⟨m, t⟩
  · exfalso
    apply hM
    have hpn : List.Perm M ([] : List MatchRec) := by rw [← hs]; exact hperm.symm
    exact hpn.eq_nil
  · refine ⟨m, t, rfl, ?_, ?_⟩
    · exact hperm.mem_iff.mp (by rw [hs]; simp)
    · intro x hx
      have hx2 : x ∈ m :: t := by rw [← hs]; exact hperm.mem_iff.mpr hx
      rw [hs] at hsort
      obtain ⟨hall, _⟩ := List.sorted_cons.mp hsort
      rcases List.mem_cons.mp hx2 with rfl | hx3
      · exact le_refl _
      · exact hall x hx3

theorem fuzzy_rejected {input : String} {kb : List KBEntry} (hkb : kb ≠ [])
    (h : ∀ e ∈ kb, combinedScore input e ≤ 0.3) :
    fuzzy_match_kb input kb = ("No relevant information found.", 0) := by
  unfold fuzzy_match_kb
  rw [if_neg (by simpa [List.isEmpty_iff] using hkb)]
  rw [matchesFor_nil_of_below h]
  rfl

theorem fuzzy_accepted {input : String} {kb : List KBEntry}
    (h : ∃ e ∈ kb, (0.3 : ℚ) < combinedScore input e) :
    ∃ e ∈ kb,
      fuzzy_match_kb input kb = (e.answer, combinedScore input e) ∧
      (0.3 : ℚ) < combinedScore input e ∧
      ∀ e2 ∈ kb, combinedScore input e2 ≤ combinedScore input e := by
  obtain ⟨e0, he0, hs0⟩ := h
  have hkb : kb ≠ [] := by rintro rfl; simp at he0
  have hMne := matchesFor_ne_nil_of_above he0 hs0
  obtain ⟨m, t, hsorted, hmem, hmax⟩ := sorted_head_max _ hMne
  obtain ⟨hgt, e, hget, hq, hs⟩ := mem_matchesFor.mp hmem
  refine ⟨e, List.get?_mem hget, ?_, by rw [← hs]; exact hgt, ?_⟩
  · unfold fuzzy_match_kb
    rw [if_neg (by simpa [List.isEmpty_iff] using hkb), hsorted]
    show ((kb.getD m.idx ⟨"", ""⟩).answer, m.score) = (e.answer, combinedScore input e)
    rw [getD_of_get? kb m.idx ⟨"", ""⟩ e hget, hs]
  · intro e2 he2
    by_cases h2 : (0.3 : ℚ) < combinedScore input e2
    · have hm2ne := matchesFor_ne_nil_of_above he2 h2
      obtain ⟨⟨i, hi⟩, hgete2⟩ := List.mem_iff_get.mp he2
      have hget2 : kb.get? i = some e2 := by rw [List.get?_eq_get hi, hgete2]
      have hmem2 : MatchRec.mk e2.question (combinedScore input e2) i ∈ matchesFor input kb :=
        mem_matchesFor.mpr ⟨h2, e2, hget2, rfl, rfl⟩
      have := hmax _ hmem2
      rw [← hs]
      simpa using this
    · push_neg at h2
      rw [← hs]
      calc combinedScore input e2 ≤ 0.3 := h2
        _ ≤ m.score := le_of_lt hgt

/-! ## Lemmas on the enhanced pipeline -/

theorem handle_course_conf_state_free (st st' : SessionState) (u o : String) :
    (handle_course_inquiry st u o).2.1 = (handle_course_inquiry st' u o).2.1 := by
  unfold handle_course_inquiry
  rcases h : COURSES.find? (fun c =>
      c.2.keywords.any (fun k => strContains u k)
      || c.2.keywords.any (fun k => strContains (pyLower o) k)) with _ | c <;> simp [h]

theorem handle_course_ctx (st : SessionState) (u o : String) :
    (handle_course_inquiry st u o).2.2.conversation_context = st.conversation_context := by
  unfold handle_course_inquiry
  rcases h : COURSES.find? (fun c =>
      c.2.keywords.any (fun k => strContains u k)
      || c.2.keywords.any (fun k => strContains (pyLower o) k)) with _ | c <;> simp [h]

theorem handle_course_hist (st : SessionState) (u o : String) :
    (handle_course_inquiry st u o).2.2.history = st.history := by
  unfold handle_course_inquiry
  rcases h : COURSES.find? (fun c =>
      c.2.keywords.any (fun k => strContains u k)
      || c.2.keywords.any (fun k => strContains (pyLower o) k)) with _ | c <;> simp [h]

theorem handle_course_processing (st : SessionState) (u o : String) :
    (handle_course_inquiry st u o).2.2.processing = st.processing := by
  unfold handle_course_inquiry
  rcases h : COURSES.find? (fun c =>
      c.2.keywords.any (fun k => strContains u k)
      || c.2.keywords.any (fun k => strContains (pyLower o) k)) with _ | c <;> simp [h]

theorem handle_fees_conf (st : SessionState) (u : String) :
    (handle_fees_inquiry st u).2 = 1 := by
  unfold handle_fees_inquiry
  split_ifs <;> rfl

theorem stageResult_conf_state_free (tr : String → String) (now : String)
    (kb : List KBEntry) (st st' : SessionState) (v lang : String) :
    (stageResult tr now kb st v lang).2.1 = (stageResult tr now kb st' v lang).2.1 := by
  unfold stageResult
  dsimp only
  split_ifs <;>
    simp only [handle_course_conf_state_free st st', handle_fees_conf]

theorem stageResult_ctx (tr : String → String) (now : String)
    (kb : List KBEntry) (st : SessionState) (v lang : String) :
    (stageResult tr now kb st v lang).2.2.conversation_context
      = st.conversation_context := by
  unfold stageResult
  dsimp only
  split_ifs <;> simp only [handle_course_ctx]

theorem stageResult_hist (tr : String → String) (now : String)
    (kb : List KBEntry) (st : SessionState) (v lang : String) :
    (stageResult tr now kb st v lang).2.2.history = st.history := by
  unfold stageResult
  dsimp only
  split_ifs <;> simp only [handle_course_hist]

theorem stageResult_processing (tr : String → String) (now : String)
    (kb : List KBEntry) (st : SessionState) (v lang : String) :
    (stageResult tr now kb st v lang).2.2.processing = st.processing := by
  unfold stageResult
  dsimp only
  split_ifs <;> simp only [handle_course_processing]

theorem geR_intent_state_free (tr trBack : String → String) (now : String)
    (kb : List KBEntry) (st st' : SessionState) (x lang : String) :
    (get_enhanced_response tr trBack now kb st x lang).intent
      = (get_enhanced_response tr trBack now kb st' x lang).intent := by
  unfold get_enhanced_response
  rcases h : validate_input x with e | v <;> simp

theorem geR_conf_state_free (tr trBack : String → String) (now : String)
    (kb : List KBEntry) (st st' : SessionState) (x lang : String) :
    (get_enhanced_response tr trBack now kb st x lang).confidence
      = (get_enhanced_response tr trBack now kb st' x lang).confidence := by
  unfold get_enhanced_response
  rcases h : validate_input x with e | v
  · simp
  · simpa using stageResult_conf_state_free tr now kb st st' v lang

theorem geR_ctx (tr trBack : String → String) (now : String)
    (kb : List KBEntry) (st : SessionState) (x lang : String) :
    (get_enhanced_response tr trBack now kb st x lang).state.conversation_context
      = st.conversation_context := by
  unfold get_enhanced_response
  rcases h : validate_input x with e | v
  · simp
  · simpa using stageResult_ctx tr now kb st v lang

theorem geR_hist (tr trBack : String → String) (now : String)
    (kb : List KBEntry) (st : SessionState) (x lang : String) :
    (get_enhanced_response tr trBack now kb st x lang).state.history = st.history := by
  unfold get_enhanced_response
  rcases h : validate_input x with e | v
  · simp
  · simpa using stageResult_hist tr now kb st v lang

theorem geR_processing (tr trBack : String → String) (now : String)
    (kb : List KBEntry) (st : SessionState) (x lang : String) :
    (get_enhanced_response tr trBack now kb st x lang).state.processing
      = st.processing := by
  unfold get_enhanced_response
  rcases h : validate_input x with e | v
  · simp
  · simpa using stageResult_processing tr now kb st v lang

/-! ## Lemmas on process_user_input -/

theorem process_skip (det tr trBack : String → String) (now : String)
    (kb : List KBEntry) (st : SessionState) (x : String)
    (h : pyStrip x = "" ∨ st.processing = true) :
    process_user_input det tr trBack now kb st x = st := by
  unfold process_user_input
  rw [if_pos (by tauto)]

theorem process_run_ctx (det tr trBack : String → String) (now : String)
    (kb : List KBEntry) (st : SessionState) (x : String)
    (hp : st.processing = false) (hx : pyStrip x ≠ "") :
    (process_user_input det tr trBack now kb st x).conversation_context
      = lastN 10 (st.conversation_context ++ [turnEntry det tr trBack now kb x])
    ∧ (process_user_input det tr trBack now kb st x).processing = false := by
  unfold process_user_input
  rw [if_neg (by simp [hp, hx])]
  refine ⟨?_, rfl⟩
  simp only
  rw [geR_ctx, cap10_eq_lastN]
  have hentry :
      (⟨x, (get_enhanced_response tr trBack now kb { st with processing := true } x (det x)).intent,
        (get_enhanced_response tr trBack now kb { st with processing := true } x (det x)).confidence⟩ : CtxEntry)
      = turnEntry det tr trBack now kb x := by
    unfold turnEntry
    dsimp only
    rw [geR_intent_state_free tr trBack now kb { st with processing := true }
        initialSession x (det x),
      geR_conf_state_free tr trBack now kb { st with processing := true }
        initialSession x (det x)]
  rw [hentry]

theorem runTurns_ctx (det tr trBack : String → String) (now : String)
    (kb : List KBEntry) (inputs : List String) :
    ∀ st : SessionState, st.processing = false →
      st.conversation_context.length ≤ 10 →
      (∀ x ∈ inputs, pyStrip x ≠ "") →
      (runTurns det tr trBack now kb st inputs).conversation_context
        = lastN 10 (st.conversation_context ++ inputs.map (turnEntry det tr trBack now kb))
      ∧ (runTurns det tr trBack now kb st inputs).processing = false := by
  induction inputs with
  | nil =>
    intro st hp hlen _
    refine ⟨?_, hp⟩
    simp [runTurns, lastN_of_le 10 _ hlen]
  | cons x xs ih =>
    intro st hp hlen hall
    have hx := hall x (by simp)
    have hstep := process_run_ctx det tr trBack now kb st x hp hx
    have hrw : runTurns det tr trBack now kb st (x :: xs)
        = runTurns det tr trBack now kb (process_user_input det tr trBack now kb st x) xs := by
      simp [runTurns]
    have hlen2 : (process_user_input det tr trBack now kb st x).conversation_context.length ≤ 10 := by
      rw [hstep.1, length_lastN]
      omega
    have hrest := ih (process_user_input det tr trBack now kb st x) hstep.2 hlen2
      (fun y hy => hall y (by simp [hy]))
    rw [hrw, hrest.1, hstep.1, lastN_append_lastN]
    refine ⟨?_, hrest.2⟩
    congr 1
    simp

/-! ## Claim theorems

The program computes the combined score in IEEE doubles while this
development computes it in exact rationals.  The two agree away from the
acceptance boundary (the stage either yields no match or a score that the
float comparison and the exact comparison classify alike), but at the
boundary they can differ: `(0.0 * 0.6) + (0.75 * 0.4)` rounds to a double
strictly above 0.3 while `(0.4 * 0.6) + (0.15 * 0.4)` rounds to the double
0.3 itself, although both products are exactly 3/10 in real arithmetic.  The
threshold-boundary behaviour of the code is therefore a floating-point
property outside this embedding, and no theorem below is about it.
-/

/-- C2: on a non-empty knowledge base, the fuzzy stage scores every entry as
0.6 times the word-overlap ratio plus 0.4 times the character-sequence
similarity ratio, returns the answer of a maximal-scoring entry together with
its score when some entry exceeds the 0.3 acceptance threshold, and otherwise
yields no match with confidence 0. -/
theorem c2_fuzzy_stage (input : String) (kb : List KBEntry) (hkb : kb ≠ []) :
    (∀ e ∈ kb, combinedScore input e
        = overlapRatio input e.question * 0.6 + seqRatio input e.question * 0.4)
    ∧ ((∃ e ∈ kb, (0.3 : ℚ) < combinedScore input e) →
        ∃ e ∈ kb, fuzzy_match_kb input kb = (e.answer, combinedScore input e)
          ∧ ∀ e2 ∈ kb, combinedScore input e2 ≤ combinedScore input e)
    ∧ ((∀ e ∈ kb, combinedScore input e ≤ 0.3) →
        fuzzy_match_kb input kb = ("No relevant information found.", 0)) := by
  refine ⟨fun e _ => rfl, ?_, fun h => fuzzy_rejected hkb h⟩
  intro h
  obtain ⟨e, he, h1, _, h3⟩ := fuzzy_accepted h
  exact ⟨e, he, h1, h3⟩

/-- C3: in both pipelines, an input that triggers no explicit command, no
deterministic-intent pattern, no (non-empty) exact knowledge-base answer and
no keyword bucket, whose fuzzy stage is not accepted, and whose classifier
probability is at or below 0.75, yields the fixed fallback response — with
confidence 0 in the pipeline that reports a confidence. -/
theorem c3_fallback_guarantee :
    (∀ (weatherOr : String → String) (nowStr : String) (kb : List (String × String))
        (clfProb : ℚ) (clfResponse : Option String) (msg0 : String),
      pyStartsWith (pyLower msg0) "/weather" = false →
      strContains (pyLower msg0) "time" = false →
      strContains (pyLower msg0) "date" = false →
      (check_faq kb (pyLower msg0)).getD "" = "" →
      (∀ kw ∈ custom_keywords, strContains (pyLower msg0) kw.1 = false) →
      clfProb ≤ 0.75 →
      get_response weatherOr nowStr kb clfProb clfResponse msg0 = appFallback)
    ∧ (∀ (tr trBack : String → String) (now : String) (kb : List KBEntry)
        (st : SessionState) (x lang v : String),
      validate_input x = Except.ok v →
      classify_intent_multilingual v lang = "general" →
      (fuzzy_match_kb (translatedInput tr lang v) kb).2 < 0.3 →
      get_enhanced_response tr trBack now kb st x lang
        = ⟨fallbackResponse lang, 0, translatedInput tr lang v, "general", st⟩) := by
  constructor
  · intro weatherOr nowStr kb clfProb clfResponse msg0 h1 h2 h3 h4 h5 h6
    unfold get_response
    rw [if_neg (by simp [h1]), if_neg (by simp [h2, h3])]
    have hkwd : custom_keywords.find? (fun kw => strContains (pyLower msg0) kw.1) = none :=
      List.find?_eq_none.mpr (fun kw hkw => by simp [h5 kw hkw])
    have hclf : ¬ ((0.75 : ℚ) < clfProb) := not_lt.mpr h6
    rcases hf : check_faq kb (pyLower msg0) with _ | a
    · unfold keyword_stage
      rw [hkwd, if_neg hclf]
    · have ha : a = "" := by simpa [hf] using h4
      dsimp only
      rw [if_pos ha]
      unfold keyword_stage
      rw [hkwd, if_neg hclf]
  · intro tr trBack now kb st x lang v hv hcls hfz
    have hstage : stageResult tr now kb st v lang = (fallbackResponse lang, 0, st) := by
      unfold stageResult
      dsimp only
      rw [hcls, if_neg (by decide), if_neg (by decide), if_neg (by decide),
        if_neg (by decide)]
      rw [if_pos hfz]
    unfold get_enhanced_response
    rw [hv]
    dsimp only
    rw [hstage, hcls]
    dsimp only
    rw [if_neg (by simp)]

/-- C4: `bag_of_words` returns a vector of the vocabulary's length whose i-th
entry is 1 exactly when some token's stem equals the i-th vocabulary word and
0 otherwise; the result is independent of token order; and the training rows
and the inference vector are the same function applied to the tokenized
text. -/
theorem c4_bag_of_words (stem : String → String) (toks V : List String) (msg : String) :
    (bag_of_words stem toks V).length = V.length
    ∧ (∀ i, i < V.length →
        (bag_of_words stem toks V).getD i 0
          = if (∃ t ∈ toks, stem t = V.getD i "") then 1 else 0)
    ∧ bag_of_words stem toks.reverse V = bag_of_words stem toks V
    ∧ X_train_row stem V toks = bag_of_words stem toks V
    ∧ inference_vector stem V msg = bag_of_words stem (tokenize msg) V := by
  refine ⟨by simp [bag_of_words], ?_, ?_, rfl, rfl⟩
  · intro i hi
    have hV : V.get? i = some (V.get ⟨i, hi⟩) := List.get?_eq_get hi
    have hmap : (V.map (fun w => if w ∈ toks.map stem then (1 : Nat) else 0)).get? i
        = some (if V.get ⟨i, hi⟩ ∈ toks.map stem then 1 else 0) := by
      rw [List.get?_map, hV]
      rfl
    have hgetV : V.getD i "" = V.get ⟨i, hi⟩ := getD_of_get? V i "" _ hV
    show (V.map (fun w => if w ∈ toks.map stem then (1 : Nat) else 0)).getD i 0 = _
    rw [getD_of_get? _ i 0 _ hmap, hgetV]
    by_cases hmem : V.get ⟨i, hi⟩ ∈ toks.map stem
    · rw [if_pos hmem, if_pos]
      obtain ⟨t, ht, hteq⟩ := List.mem_map.mp hmem
      exact ⟨t, ht, hteq⟩
    · rw [if_neg hmem, if_neg]
      intro ⟨t, ht, hteq⟩
      exact hmem (List.mem_map.mpr ⟨t, ht, hteq⟩)
  · show V.map _ = V.map _
    apply List.map_congr_left
    intro w _
    have : w ∈ toks.reverse.map stem ↔ w ∈ toks.map stem := by
      rw [List.map_reverse, List.mem_reverse]
    by_cases hmem : w ∈ toks.map stem
    · rw [if_pos hmem, if_pos (this.mpr hmem)]
    · rw [if_neg hmem, if_neg (fun hc => hmem (this.mp hc))]

/-- C5 (amended): in `classify_intent_multilingual` the greeting patterns are
checked before the temporal keywords, so an input whose sanitised text
matches a greeting pattern — in particular one that also matches a temporal
keyword — is resolved as a greeting and the pipeline returns the canned
greeting (translated when the detected language is not English) with
confidence 1.0 and the session state untouched; a temporal query is resolved,
and its timestamp-bearing response synthesised with confidence 1.0, only when
no greeting, course or fee pattern matched. -/
theorem c5_order_amended (tr trBack : String → String) (now : String)
    (kb : List KBEntry) (st : SessionState) (x lang v : String)
    (hv : validate_input x = Except.ok v) :
    (greetingHit v lang = true →
      classify_intent_multilingual v lang = "greeting"
      ∧ get_enhanced_response tr trBack now kb st x lang
          = ⟨if lang ≠ "en" then trBack (handle_greeting lang) else handle_greeting lang,
             1, translatedInput tr lang v, "greeting", st⟩)
    ∧ (greetingHit v lang = false → kwHit course_keywords v = false →
        kwHit fee_keywords v = false → kwHit time_keywords v = true →
        classify_intent_multilingual v lang = "time"
        ∧ get_enhanced_response tr trBack now kb st x lang
            = ⟨if lang ≠ "en" then trBack (handle_time_query now lang)
                 else handle_time_query now lang,
               1, translatedInput tr lang v, "time", st⟩
        ∧ handle_time_query now lang
            = (if lang = "zh-cn" then "🕒 当前时间：" else "🕒 Current time: ") ++ now) := by
  constructor
  · intro h
    have hcls : classify_intent_multilingual v lang = "greeting" := by
      simp [classify_intent_multilingual, h]
    refine ⟨hcls, ?_⟩
    have hstage : stageResult tr now kb st v lang = (handle_greeting lang, 1, st) := by
      unfold stageResult
      dsimp only
      rw [hcls, if_pos rfl]
    unfold get_enhanced_response
    rw [hv]
    dsimp only
    rw [hstage, hcls]
    dsimp only
    by_cases hl : lang = "en"
    · rw [if_neg (by simp [hl]), if_neg (by simp [hl])]
    · rw [if_pos (show ¬lang = "en" ∧ (0 : ℚ) < 1 from ⟨hl, by norm_num⟩), if_pos hl]
  · intro h1 h2 h3 h4
    have hcls : classify_intent_multilingual v lang = "time" := by
      simp [classify_intent_multilingual, h1, h2, h3, h4]
    refine ⟨hcls, ?_, ?_⟩
    · have hstage : stageResult tr now kb st v lang = (handle_time_query now lang, 1, st) := by
        unfold stageResult
        dsimp only
        rw [hcls, if_neg (by decide), if_neg (by decide), if_neg (by decide), if_pos rfl]
      unfold get_enhanced_response
      rw [hv]
      dsimp only
      rw [hstage, hcls]
      dsimp only
      by_cases hl : lang = "en"
      · rw [if_neg (by simp [hl]), if_neg (by simp [hl])]
      · rw [if_pos (show ¬lang = "en" ∧ (0 : ℚ) < 1 from ⟨hl, by norm_num⟩), if_pos hl]
    · unfold handle_time_query
      by_cases hl : lang = "zh-cn"
      · rw [if_pos hl, if_pos hl]
      · rw [if_neg hl, if_neg hl]

/-- C6 (amended): when no earlier stage (weather command, time/date keyword)
fires and the lowercased input contains a knowledge-base question whose
stored answer is non-empty, `get_response` returns that answer prefixed with
markers (not verbatim), and the statistical classifier is not consulted: the
result does not depend on the classifier's output. -/
theorem c6_faq_amended (weatherOr : String → String) (nowStr : String)
    (kb : List (String × String)) (clfProb : ℚ) (clfResponse : Option String)
    (msg0 a : String)
    (h1 : pyStartsWith (pyLower msg0) "/weather" = false)
    (h2 : strContains (pyLower msg0) "time" = false)
    (h3 : strContains (pyLower msg0) "date" = false)
    (h4 : check_faq kb (pyLower msg0) = some a) (h5 : a ≠ "") :
    get_response weatherOr nowStr kb clfProb clfResponse msg0 = "📚 " ++ a
    ∧ ∀ (p2 : ℚ) (r2 : Option String),
        get_response weatherOr nowStr kb p2 r2 msg0
          = get_response weatherOr nowStr kb clfProb clfResponse msg0 := by
  have key : ∀ (p : ℚ) (r : Option String),
      get_response weatherOr nowStr kb p r msg0 = "📚 " ++ a := by
    intro p r
    unfold get_response
    dsimp only
    rw [if_neg (by simp [h1]), if_neg (by simp [h2, h3]), h4]
    dsimp only
    rw [if_neg h5]
  exact ⟨key clfProb clfResponse,
    fun p2 r2 => by rw [key p2 r2, key clfProb clfResponse]⟩

/-- C9: when the in-flight guard is set, a call to `process_user_input` is a
no-op on the session state, and the guard is down again at the end of every
turn started with the guard clear. -/
theorem c9_processing_guard (det tr trBack : String → String) (now : String)
    (kb : List KBEntry) (st : SessionState) (x : String) :
    (st.processing = true → process_user_input det tr trBack now kb st x = st)
    ∧ (st.processing = false →
        (process_user_input det tr trBack now kb st x).processing = false) := by
  constructor
  · intro hp
    exact process_skip det tr trBack now kb st x (Or.inr hp)
  · intro hp
    by_cases hx : pyStrip x = ""
    · rw [process_skip det tr trBack now kb st x (Or.inl hx)]
      exact hp
    · exact (process_run_ctx det tr trBack now kb st x hp hx).2

/-- C8: starting from a fresh session, after processing N non-blank inputs
the rolling context window holds exactly the most recent min(N, 10) turn
entries, in turn order. -/
theorem c8_context_window (det tr trBack : String → String) (now : String)
    (kb : List KBEntry) (inputs : List String)
    (h : ∀ x ∈ inputs, pyStrip x ≠ "") :
    (runTurns det tr trBack now kb initialSession inputs).conversation_context
      = lastN 10 (inputs.map (turnEntry det tr trBack now kb))
    ∧ (runTurns det tr trBack now kb initialSession inputs).conversation_context.length
      = min 10 inputs.length := by
  have hmain := runTurns_ctx det tr trBack now kb inputs initialSession rfl
    (by simp [initialSession]) h
  have h1 : (runTurns det tr trBack now kb initialSession inputs).conversation_context
      = lastN 10 (inputs.map (turnEntry det tr trBack now kb)) := by
    have := hmain.1
    simpa [initialSession] using this
  refine ⟨h1, ?_⟩
  rw [h1, length_lastN, List.length_map]

/-- C10: for a non-empty input, `validate_input` either raises the length
error (when the sanitised text is longer than 500 characters) or returns the
whitespace-trimmed input with every occurrence of the four unsafe characters
removed; a returned value contains none of those characters and is at most
500 characters long. -/
theorem c10_validate (x : String) (hx : x ≠ "") :
    (500 < (sanitize x).length ∧
      validate_input x = Except.error "Input too long. Please limit to 500 characters.")
    ∨ (validate_input x = Except.ok (sanitize x)
        ∧ sanitize x = String.mk ((pyStrip x).data.filter (fun c => !(strippedChars.contains c)))
        ∧ (∀ c ∈ (sanitize x).data, ¬ c ∈ strippedChars)
        ∧ (sanitize x).length ≤ 500) := by
  by_cases h : 500 < (sanitize x).length
  · left
    refine ⟨h, ?_⟩
    unfold validate_input
    rw [if_neg hx, if_pos h]
  · right
    refine ⟨?_, rfl, ?_, by omega⟩
    · unfold validate_input
      rw [if_neg hx, if_neg h]
    · intro c hc
      have hmem : c ∈ (pyStrip x).data.filter (fun c => !(strippedChars.contains c)) := hc
      have h2 := (List.mem_filter.mp hmem).2
      simpa using h2

/-- C7 (amended): an empty (or all-whitespace) input is dropped before the
pipeline with the session state untouched; but an input that fails validation
for length is not rejected before the pipeline: the failure is converted
inside `get_enhanced_response` into the apologetic error response with
confidence 0 and intent "error", and the turn is recorded in the history and
the rolling context window. -/
theorem c7_validation_amended (det tr trBack : String → String) (now : String)
    (kb : List KBEntry) (st : SessionState) (x em : String) :
    (pyStrip x = "" → process_user_input det tr trBack now kb st x = st)
    ∧ (st.processing = false → pyStrip x ≠ "" →
        validate_input x = Except.error em →
        process_user_input det tr trBack now kb st x
          = { st with
              history := st.history ++ [("You", x), ("Bot", errorResponse (det x))],
              conversation_context :=
                cap10 (st.conversation_context ++ [⟨x, "error", 0⟩]) }) := by
  constructor
  · intro hx
    exact process_skip det tr trBack now kb st x (Or.inl hx)
  · intro hp hx hv
    have hg : get_enhanced_response tr trBack now kb { st with processing := true } x (det x)
        = ⟨errorResponse (det x), 0, x, "error", { st with processing := true }⟩ := by
      unfold get_enhanced_response
      rw [hv]
    unfold process_user_input
    rw [if_neg (by simp [hp, hx])]
    dsimp only
    rw [hg]
    cases st
    simp_all

/-! ## Concrete counterexamples and witnesses -/

section

set_option maxRecDepth 16000

attribute [local semireducible] Rat.add Rat.mul Rat.inv Rat.sub Rat.ofScientific

/-- C2 witness: the fuzzy-stage contract applied to a one-entry knowledge
base matched exactly (combined score 1 > 0.3). -/
theorem c2_fuzzy_stage_witness :
    (∃ e ∈ [KBEntry.mk "library hours" "L"],
      (0.3 : ℚ) < combinedScore "library hours" e)
    ∧ ∃ e ∈ [KBEntry.mk "library hours" "L"],
        fuzzy_match_kb "library hours" [KBEntry.mk "library hours" "L"]
          = (e.answer, combinedScore "library hours" e)
        ∧ ∀ e2 ∈ [KBEntry.mk "library hours" "L"],
            combinedScore "library hours" e2 ≤ combinedScore "library hours" e :=
  ⟨by decide,
   (c2_fuzzy_stage "library hours" [KBEntry.mk "library hours" "L"] (by decide)).2.1
     (by decide)⟩

/-- C3 witness: the fallback guarantee at concrete inputs — `"qqq"` matches
no command, keyword, FAQ row or fuzzy entry, and a classifier probability of
1/2 is at or below 0.75, so both pipelines return their fixed fallback, the
enhanced one with confidence 0. -/
theorem c3_fallback_guarantee_witness :
    get_response (fun _ => "") "T" [] (1/2) none "qqq" = appFallback
    ∧ get_enhanced_response (fun s => s) (fun s => s) "T" [] initialSession "qqq" "en"
        = ⟨fallbackResponse "en", 0, "qqq", "general", initialSession⟩ :=
  ⟨c3_fallback_guarantee.1 (fun _ => "") "T" [] (1/2) none "qqq"
      (by decide) (by decide) (by decide) (by decide) (by decide) (by decide),
   c3_fallback_guarantee.2 (fun s => s) (fun s => s) "T" [] initialSession "qqq" "en"
      "qqq" rfl (by decide) (by decide)⟩

/-- C4 witness: the bag-of-words contract at a concrete stemmer, token list
and vocabulary, including the order-independence instance. -/
theorem c4_bag_of_words_witness :
    ((bag_of_words (fun s => s) ["b", "a"] ["a", "c"]).getD 0 0
      = if (∃ t ∈ (["b", "a"] : List String), (fun s : String => s) t
            = (["a", "c"] : List String).getD 0 "") then 1 else 0)
    ∧ bag_of_words (fun s => s) (["b", "a"] : List String).reverse ["a", "c"]
        = bag_of_words (fun s => s) ["b", "a"] ["a", "c"] :=
  ⟨(c4_bag_of_words (fun s => s) ["b", "a"] ["a", "c"] "x").2.1 0 (by decide),
   (c4_bag_of_words (fun s => s) ["b", "a"] ["a", "c"] "x").2.2.1⟩

/-- C5 counterexample: `"hello what time is it"` matches both a temporal
keyword and a greeting pattern, but `classify_intent_multilingual` resolves
it as a greeting — not as a temporal query — and the pipeline answers with
the canned greeting at confidence 1.0, not a timestamp response: greetings
are checked first. -/
theorem c5_order_counterexample :
    kwHit time_keywords "hello what time is it" = true
    ∧ greetingHit "hello what time is it" "en" = true
    ∧ classify_intent_multilingual "hello what time is it" "en" = "greeting"
    ∧ classify_intent_multilingual "hello what time is it" "en" ≠ "time"
    ∧ (get_enhanced_response (fun s => s) (fun s => s) "T" [] initialSession
        "hello what time is it" "en").response = handle_greeting "en"
    ∧ (get_enhanced_response (fun s => s) (fun s => s) "T" [] initialSession
        "hello what time is it" "en").confidence = 1
    ∧ handle_greeting "en" ≠ handle_time_query "T" "en" :=
  ⟨by decide, by decide, by decide, by decide, by decide, by decide, by decide⟩

/-- C5 witness: the amended ordering claim at concrete inputs — a pure
greeting resolves through the pipeline as the canned greeting with confidence
1.0, and a temporal query with no greeting, course or fee keyword resolves as
the timestamp-bearing time response with confidence 1.0. -/
theorem c5_order_amended_witness :
    (classify_intent_multilingual "hello there" "en" = "greeting"
      ∧ get_enhanced_response (fun s => s) (fun s => s) "T" [] initialSession
          "hello there" "en"
          = ⟨handle_greeting "en", 1, "hello there", "greeting", initialSession⟩)
    ∧ (classify_intent_multilingual "what time is it" "en" = "time"
      ∧ get_enhanced_response (fun s => s) (fun s => s) "T" [] initialSession
          "what time is it" "en"
          = ⟨handle_time_query "T" "en", 1, "what time is it", "time", initialSession⟩
      ∧ handle_time_query "T" "en"
          = (if ("en" : String) = "zh-cn" then "🕒 当前时间：" else "🕒 Current time: ")
            ++ "T") :=
  ⟨(c5_order_amended (fun s => s) (fun s => s) "T" [] initialSession
      "hello there" "en" "hello there" rfl).1 (by decide),
   (c5_order_amended (fun s => s) (fun s => s) "T" [] initialSession
      "what time is it" "en" "what time is it" rfl).2 (by decide) (by decide)
      (by decide) (by decide)⟩

/-- C6 counterexample: with the knowledge base `[("library hours", "A")]`,
the input `"library hours"` contains the stored question, but the pipeline
returns `"📚 A"`, not the verbatim paired answer `"A"`. -/
theorem c6_faq_counterexample :
    check_faq [("library hours", "A")] (pyLower "library hours") = some "A"
    ∧ get_response (fun _ => "W") "T" [("library hours", "A")] 0 none "library hours"
        = "📚 A"
    ∧ "📚 A" ≠ "A" :=
  ⟨by decide, by decide, by decide⟩

/-- C6 witness: the amended FAQ claim at the concrete knowledge base. -/
theorem c6_faq_amended_witness :
    get_response (fun _ => "W") "T" [("library hours", "A")] 0 none "library hours"
      = "📚 " ++ "A"
    ∧ ∀ (p2 : ℚ) (r2 : Option String),
        get_response (fun _ => "W") "T" [("library hours", "A")] p2 r2 "library hours"
          = get_response (fun _ => "W") "T" [("library hours", "A")] 0 none "library hours" :=
  c6_faq_amended (fun _ => "W") "T" [("library hours", "A")] 0 none "library hours" "A"
    (by decide) (by decide) (by decide) (by decide) (by decide)

/-- C7 counterexample: a 501-character input fails validation, yet the turn
is not rejected before the pipeline with the state untouched — the call
appends the turn (with the apologetic error reply, confidence 0, intent
"error") to the history and the context window. -/
theorem c7_validation_counterexample :
    validate_input longInput
      = Except.error "Input too long. Please limit to 500 characters."
    ∧ process_user_input (fun _ => "en") (fun s => s) (fun s => s) "T" []
        initialSession longInput ≠ initialSession
    ∧ (process_user_input (fun _ => "en") (fun s => s) (fun s => s) "T" []
        initialSession longInput).history
        = [("You", longInput), ("Bot", errorResponse "en")]
    ∧ (process_user_input (fun _ => "en") (fun s => s) (fun s => s) "T" []
        initialSession longInput).conversation_context
        = [⟨longInput, "error", 0⟩] :=
  ⟨rfl, by decide, by decide, by decide⟩

/-- C7 witness: the amended validation claim at concrete inputs — a blank
input leaves the fresh session untouched, and the 501-character input is
processed into a recorded error turn. -/
theorem c7_validation_amended_witness :
    process_user_input (fun _ => "en") (fun s => s) (fun s => s) "T" []
      initialSession " " = initialSession
    ∧ process_user_input (fun _ => "en") (fun s => s) (fun s => s) "T" []
        initialSession longInput
        = { initialSession with
            history := initialSession.history
              ++ [("You", longInput), ("Bot", errorResponse ((fun _ => "en") longInput))],
            conversation_context :=
              cap10 (initialSession.conversation_context ++ [⟨longInput, "error", 0⟩]) } :=
  ⟨(c7_validation_amended (fun _ => "en") (fun s => s) (fun s => s) "T" []
      initialSession " " "e").1 (by decide),
   (c7_validation_amended (fun _ => "en") (fun s => s) (fun s => s) "T" []
      initialSession longInput "Input too long. Please limit to 500 characters.").2
      rfl (by decide) rfl⟩

/-- C8 witness: the context-window bound applied to twelve concrete
non-blank turns. -/
theorem c8_context_window_witness :
    (∀ x ∈ twelveInputs, pyStrip x ≠ "")
    ∧ (runTurns (fun _ => "en") (fun s => s) (fun s => s) "T" []
        initialSession twelveInputs).conversation_context
      = lastN 10 (twelveInputs.map (turnEntry (fun _ => "en") (fun s => s) (fun s => s) "T" [])) :=
  ⟨by decide,
   (c8_context_window (fun _ => "en") (fun s => s) (fun s => s) "T" [] twelveInputs
     (by decide)).1⟩

/-- C9 witness: the guard claim at concrete sessions — with the guard set the
call is a no-op, and a fresh-session call ends with the guard clear. -/
theorem c9_processing_guard_witness :
    process_user_input (fun _ => "en") (fun s => s) (fun s => s) "T" []
      busySession "hello" = busySession
    ∧ (process_user_input (fun _ => "en") (fun s => s) (fun s => s) "T" []
        initialSession "hello").processing = false :=
  ⟨(c9_processing_guard (fun _ => "en") (fun s => s) (fun s => s) "T" []
      busySession "hello").1 rfl,
   (c9_processing_guard (fun _ => "en") (fun s => s) (fun s => s) "T" []
      initialSession "hello").2 rfl⟩

/-- C10 witness: the validation contract applied to the concrete input
`" <a> "`, which is trimmed and scrubbed to `"a"`. -/
theorem c10_validate_witness :
    (500 < (sanitize " <a> ").length ∧
      validate_input " <a> "
        = Except.error "Input too long. Please limit to 500 characters.")
    ∨ (validate_input " <a> " = Except.ok (sanitize " <a> ")
        ∧ sanitize " <a> "
            = String.mk ((pyStrip " <a> ").data.filter (fun c => !(strippedChars.contains c)))
        ∧ (∀ c ∈ (sanitize " <a> ").data, ¬ c ∈ strippedChars)
        ∧ (sanitize " <a> ").length ≤ 500) :=
  c10_validate " <a> " (by decide)

end

end Chatbot
